import Mathlib

/-! Verification development for the sap api accelerator repository.

The file embeds, shallowly, the pure content of the repository source
file accelerator.py (the OData escaping helper, the parameter handling
and error handling of make_sap_api_request, and the two artifact
formatting helpers), and, where the repository snapshot holds only the
surrounding glue, models the bounded concurrency first match search
core from the design document (match predicate, concurrency gate,
cancellation signal, search tasks and the first match coordinator) as a
small step transition system.  Machine level effects (the outbound HTTP
request, the printed diagnostics, the mutation of the caller supplied
parameter dictionary) are made explicit as data returned by the
embedded functions. -/

namespace Accel

/-- The single quote character that OData string literals escape. -/
def quoteChar : Char := Char.ofNat 39

/-- Embedding of escape_odata_string from accelerator.py: the body is
value.replace applied to the single quote, doubling it.  Since the
replaced pattern is a single character, the replacement is a left to
right character scan. -/
def escapeQuotes : List Char → List Char
  | [] => []
  | c :: cs =>
    if c = quoteChar then quoteChar :: quoteChar :: escapeQuotes cs
    else c :: escapeQuotes cs

/-- escape_odata_string on whole strings. -/
def escape_odata_string (s : String) : String := String.mk (escapeQuotes s.data)

theorem escapeQuotes_eq_flatMap (l : List Char) :
    escapeQuotes l =
      l.flatMap (fun c => if c = quoteChar then [quoteChar, quoteChar] else [c]) := by
  induction l with
  | nil => rfl
  | cons c cs ih =>
    by_cases h : c = quoteChar <;> simp [escapeQuotes, h, ih]

theorem escapeQuotes_length (l : List Char) :
    (escapeQuotes l).length = l.length + l.count quoteChar := by
  induction l with
  | nil => rfl
  | cons c cs ih =>
    by_cases h : c = quoteChar <;>
      simp [escapeQuotes, h, List.count_cons, ih] <;> omega

theorem escapeQuotes_id (l : List Char) (h : quoteChar ∉ l) : escapeQuotes l = l := by
  induction l with
  | nil => rfl
  | cons c cs ih =>
    rw [List.mem_cons] at h
    push_neg at h
    simp [escapeQuotes, if_neg (Ne.symm h.1), ih h.2]

/-- Embedding of a Python dict update d[k] = v on an association list
with unique keys: an existing binding is overwritten in place, a new
key is appended at the end (insertion order semantics). -/
def dictSet : List (String × String) → String → String → List (String × String)
  | [], k, v => [(k, v)]
  | p :: ps, k, v => if p.1 = k then (k, v) :: ps else p :: dictSet ps k v

/-- Embedding of a Python dict lookup d.get(k). -/
def dictFind? : List (String × String) → String → Option String
  | [], _ => none
  | p :: ps, k => if p.1 = k then some p.2 else dictFind? ps k

theorem dictFind?_dictSet_self (ps : List (String × String)) (k v : String) :
    dictFind? (dictSet ps k v) k = some v := by
  induction ps with
  | nil => simp [dictSet, dictFind?]
  | cons p ps ih =>
    by_cases h : p.1 = k
    · simp [dictSet, h, dictFind?]
    · simp [dictSet, h, dictFind?, ih]

theorem dictFind?_dictSet_ne (ps : List (String × String)) (k v q : String)
    (h : q ≠ k) : dictFind? (dictSet ps k v) q = dictFind? ps q := by
  induction ps with
  | nil => simp [dictSet, dictFind?, Ne.symm h]
  | cons p ps ih =>
    by_cases hp : p.1 = k
    · simp [dictSet, hp, dictFind?, Ne.symm h]
    · rw [dictSet, if_neg hp, dictFind?, dictFind?]
      by_cases hq : p.1 = q
      · rw [if_pos hq, if_pos hq]
      · rw [if_neg hq, if_neg hq, ih]

/-- The four ways the single client.get call inside make_sap_api_request
can turn out: a parsed JSON body, an HTTPStatusError raised by
raise_for_status (a non success response status), a RequestError from
the transport (connectivity or timeout), or any other exception. -/
inductive HttpAttempt (α : Type) where
  | success (body : α)
  | statusError (code : Nat)
  | requestError
  | otherError

/-- One outbound request as issued by the HTTP client: the url and the
query parameters that were sent with it. -/
structure ApiRequest where
  url : String
  query : List (String × String)
  deriving DecidableEq

/-- The observable behaviour of one call to make_sap_api_request: the
outbound requests it issued, the diagnostic lines it printed (kept as
their static message heads), the caller supplied parameter dictionary
as the caller sees it after the call (the function mutates it in
place), and the value handed back. -/
structure ApiCall (α : Type) where
  requests : List ApiRequest
  log : List String
  paramsAfter : Option (List (String × String))
  result : Option α

/-- Embedding of make_sap_api_request from accelerator.py.  A missing
params dictionary is replaced by a fresh empty one; the $format=json
entry is stored into the dictionary before the request is issued (for
a caller supplied dictionary this mutates the object of the caller, so the
same updated dictionary is what the caller observes afterwards); a
single client.get is performed; every exception path prints a
diagnostic line and returns None, no retry is attempted. -/
def make_sap_api_request (α : Type) (remote : HttpAttempt α) (url : String)
    (params : Option (List (String × String))) : ApiCall α :=
  let finalParams := dictSet (params.getD []) ("$format") ("json")
  let sent : List ApiRequest := [{ url := url, query := finalParams }]
  let firstLog : List String := ["Making request to"]
  let after := params.map (fun _ => finalParams)
  match remote with
  | HttpAttempt.success b =>
      { requests := sent, log := firstLog, paramsAfter := after, result := some b }
  | HttpAttempt.statusError _ =>
      { requests := sent, log := firstLog ++ ["HTTP error occurred"],
        paramsAfter := after, result := none }
  | HttpAttempt.requestError =>
      { requests := sent, log := firstLog ++ ["An error occurred while requesting"],
        paramsAfter := after, result := none }
  | HttpAttempt.otherError =>
      { requests := sent, log := firstLog ++ ["An unexpected error occurred"],
        paramsAfter := after, result := none }

/-- The Python str.strip method with no argument: whitespace removed
from both ends, embedded as a character level computation. -/
def pyStrip (s : String) : String :=
  String.mk (((s.data.dropWhile Char.isWhitespace).reverse.dropWhile
    Char.isWhitespace).reverse)

/-- A Python value stored in an artifact record: a string, an integer,
or None.  Only string values support the strip method. -/
inductive PyVal where
  | str (s : String)
  | intVal (n : Int)
  | noneVal
  deriving DecidableEq

/-- How a value renders inside an f-string. -/
def PyVal.toDisplay : PyVal → String
  | PyVal.str s => s
  | PyVal.intVal n => toString n
  | PyVal.noneVal => "None"

/-- The strip method: defined on strings only; calling it on any other
value raises, which the embedding records as none. -/
def PyVal.strip? : PyVal → Option String
  | PyVal.str s => some (pyStrip s)
  | _ => none

/-- Embedding of entry.get(k, default) on a record dictionary. -/
def dictGet (entry : List (String × PyVal)) (k : String) (d : PyVal) : PyVal :=
  match entry.find? (fun p => p.1 == k) with
  | some p => p.2
  | none => d

/-- Embedding of format_artifact_entry from accelerator.py; returns
none exactly when the Python original would raise (strip applied to a
non string Description value). -/
def format_artifact_entry (entry : List (String × PyVal)) : Option String :=
  let name := dictGet entry ("Name") (PyVal.str ("Unknown"))
  let display_name := dictGet entry ("DisplayName") (PyVal.str ("Unknown"))
  let description := dictGet entry ("Description") (PyVal.str ("No description"))
  let entry_type := dictGet entry ("Type") (PyVal.str ("Unknown"))
  let subtype := dictGet entry ("SubType") (PyVal.str ("N/A"))
  let version := dictGet entry ("Version") (PyVal.str ("N/A"))
  let state := dictGet entry ("State") (PyVal.str ("N/A"))
  match description.strip? with
  | none => none
  | some d =>
      some ("Name: " ++ name.toDisplay ++ " (Type: " ++ entry_type.toDisplay ++
        ", SubType: " ++ subtype.toDisplay ++ ", Version: " ++ version.toDisplay ++
        ", State: " ++ state.toDisplay ++ ")\nDisplay Name: " ++
        display_name.toDisplay ++ "\nDescription: " ++ d)

/-- Embedding of format_artifact_detailed from accelerator.py. -/
def format_artifact_detailed (entry : List (String × PyVal)) : Option String :=
  let name := dictGet entry ("Name") (PyVal.str ("Unknown"))
  let display_name := dictGet entry ("DisplayName") (PyVal.str ("Unknown"))
  let description := dictGet entry ("Description") (PyVal.str ("No description"))
  let entry_type := dictGet entry ("Type") (PyVal.str ("Unknown"))
  let subtype := dictGet entry ("SubType") (PyVal.str ("N/A"))
  let version := dictGet entry ("Version") (PyVal.str ("N/A"))
  let state := dictGet entry ("State") (PyVal.str ("N/A"))
  let reg_id := dictGet entry ("reg_id") (PyVal.str ("N/A"))
  let created_at := dictGet entry ("CreatedAt") (PyVal.str ("N/A"))
  let modified_at := dictGet entry ("ModifiedAt") (PyVal.str ("N/A"))
  match description.strip? with
  | none => none
  | some d =>
      some ("Name: " ++ name.toDisplay ++ "\nDisplay Name: " ++ display_name.toDisplay ++
        "\nType: " ++ entry_type.toDisplay ++ "\nSubType: " ++ subtype.toDisplay ++
        "\nVersion: " ++ version.toDisplay ++ "\nState: " ++ state.toDisplay ++
        "\nRegistration ID: " ++ reg_id.toDisplay ++ "\nCreated At: " ++
        created_at.toDisplay ++ "\nModified At: " ++ modified_at.toDisplay ++
        "\nDescription: " ++ d)

/-- A record dictionary all of whose present values are strings. -/
def stringValued (entry : List (String × PyVal)) : Prop :=
  ∀ p ∈ entry, ∃ s : String, p.2 = PyVal.str s

theorem dictGet_stringValued (entry : List (String × PyVal)) (k s0 : String)
    (h : stringValued entry) :
    ∃ s : String, dictGet entry k (PyVal.str s0) = PyVal.str s := by
  unfold dictGet
  cases hf : entry.find? (fun p => p.1 == k) with
  | none => exact ⟨s0, rfl⟩
  | some p => exact h p (List.mem_of_find?_eq_some hf)

/-- Modelled from the spec: the SearchTarget of the search core (the
name and type pair a search resolves), which is not part of the
repository snapshot. -/
structure SearchTarget where
  name : String
  type : String
  deriving DecidableEq

/-- Modelled from the spec: a catalog Record as seen by the match
predicate; only its name field and type field take part in matching,
so the embedding keeps exactly those. -/
structure Record where
  name : String
  type : String
  deriving DecidableEq

/-- The character content of a string folded to lower case, character
by character; two strings are case insensitively equal exactly when
their folded contents coincide. -/
def lowerData (s : String) : List Char := s.data.map Char.toLower

/-- Modelled from the spec: the Match Predicate of the search core
(absent from the repository snapshot, which delegates key matching to
the remote service): case insensitive equality on the name field and
on the type field, both required, and nothing weaker. -/
def matchesTarget (r : Record) (t : SearchTarget) : Bool :=
  (lowerData r.name == lowerData t.name) && (lowerData r.type == lowerData t.type)

/-- Modelled from the spec: the failure taxonomy of one fetch. -/
inductive ErrorKind where
  | transportError
  | remoteError
  deriving DecidableEq

/-- Modelled from the spec: the terminal result of one Search Task. -/
inductive Outcome where
  | found (r : Record)
  | notFound
  | failed (e : ErrorKind)
  deriving DecidableEq

def Outcome.isFound : Outcome → Bool
  | Outcome.found _ => true
  | _ => false

/-- The lifecycle position of one Search Task: pending (not started),
holding (gate slot acquired, fetch not yet begun), fetching (remote
fetch in flight), or done with its outcome.  Holding and fetching are
the two phases occupying a slot of the Concurrency Gate. -/
inductive Phase where
  | pending
  | holding
  | fetching
  | done (o : Outcome)
  deriving DecidableEq

def Phase.holdsGate : Phase → Bool
  | Phase.holding => true
  | Phase.fetching => true
  | _ => false

def Phase.isDone : Phase → Bool
  | Phase.done _ => true
  | _ => false

/-- Modelled from the spec: the fixed data of one search.  Each
collection either fetches successfully to a list of records or fails
with a typed error; per task latencies are not stored because the
transition system below quantifies over every interleaving, which
subsumes every latency assignment. -/
structure SearchEnv where
  gateCapacity : Nat
  collections : List (Except ErrorKind (List Record))
  target : SearchTarget

/-- The outcome task i reports when its fetch is allowed to run: a
failed fetch is reported as failed, a successful fetch is scanned with
the match predicate. -/
def taskOutcome (env : SearchEnv) (i : Nat) : Outcome :=
  match env.collections[i]? with
  | some (Except.ok recs) =>
      match recs.find? (fun r => matchesTarget r env.target) with
      | some r => Outcome.found r
      | none => Outcome.notFound
  | some (Except.error e) => Outcome.failed e
  | none => Outcome.notFound

/-- Modelled from the spec: the shared state of one search run: the
phase of every task, the CancellationSignal, the first Found record
observed by the coordinator, and a counter of fetch initiations. -/
structure Config where
  phases : List Phase
  cancelled : Bool
  found : Option Record
  fetches : Nat
  deriving DecidableEq

def initConfig (n : Nat) : Config :=
  { phases := List.replicate n Phase.pending, cancelled := false,
    found := none, fetches := 0 }

/-- Number of tasks currently holding a slot of the Concurrency Gate. -/
def holders (c : Config) : Nat := c.phases.countP Phase.holdsGate

/-- First match wins: the coordinator keeps the first Found outcome it
observes and ignores every later one. -/
def updateFound : Option Record → Outcome → Option Record
  | none, Outcome.found r => some r
  | f, _ => f

/-- Modelled from the spec: one scheduling step of the search core.
A pending task observing the set CancellationSignal finishes without
fetching; a pending task may acquire a gate slot while fewer than
gateCapacity slots are held; a task holding a slot re-checks the
signal and either releases the slot without fetching (signal set) or
initiates its remote fetch (signal clear); a fetching task completes
with its outcome, releasing its slot, and a Found completion sets the
CancellationSignal and hands the record to the coordinator.  Any
enabled step may fire, so reachability quantifies over every
interleaving produced by the bounded scheduler. -/
inductive Step (env : SearchEnv) : Config → Config → Prop where
  | cancelSkip (c : Config) (i : Nat)
      (hp : c.phases[i]? = some Phase.pending) (hc : c.cancelled = true) :
      Step env c { c with phases := c.phases.set i (Phase.done Outcome.notFound) }
  | acquire (c : Config) (i : Nat)
      (hp : c.phases[i]? = some Phase.pending) (hg : holders c < env.gateCapacity) :
      Step env c { c with phases := c.phases.set i Phase.holding }
  | cancelRelease (c : Config) (i : Nat)
      (hp : c.phases[i]? = some Phase.holding) (hc : c.cancelled = true) :
      Step env c { c with phases := c.phases.set i (Phase.done Outcome.notFound) }
  | startFetch (c : Config) (i : Nat)
      (hp : c.phases[i]? = some Phase.holding) (hc : c.cancelled = false) :
      Step env c { c with
                    phases := c.phases.set i Phase.fetching,
                    fetches := c.fetches + 1 }
  | complete (c : Config) (i : Nat)
      (hp : c.phases[i]? = some Phase.fetching) :
      Step env c { c with
                    phases := c.phases.set i (Phase.done (taskOutcome env i)),
                    cancelled := c.cancelled || (taskOutcome env i).isFound,
                    found := updateFound c.found (taskOutcome env i) }

/-- The configurations one search can pass through: every state
reachable from the all pending initial state by scheduler steps. -/
def Reachable (env : SearchEnv) (c : Config) : Prop :=
  Relation.ReflTransGen (Step env) (initConfig env.collections.length) c

/-- A search run has ended: every task settled. -/
def Config.allDone (c : Config) : Bool := c.phases.all Phase.isDone

/-- Modelled from the spec: the terminal states of the First Match
Coordinator. -/
inductive CoordResult where
  | foundR (r : Record)
  | exhausted (searched failures : Nat)
  | aborted
  deriving DecidableEq

/-- Collections whose task settled without a fetch failure. -/
def searchedCount (c : Config) : Nat :=
  c.phases.countP (fun p =>
    match p with
    | Phase.done (Outcome.found _) => true
    | Phase.done Outcome.notFound => true
    | _ => false)

/-- Collections whose fetch failed; absorbed into a tally, never
escalated. -/
def failedCount (c : Config) : Nat :=
  c.phases.countP (fun p =>
    match p with
    | Phase.done (Outcome.failed _) => true
    | _ => false)

/-- Modelled from the spec: the single operation the core exposes,
read off a finished run: the first Found record if one was observed,
otherwise Exhausted with its diagnostic counts. -/
def find_artifact (c : Config) : CoordResult :=
  match c.found with
  | some r => CoordResult.foundR r
  | none => CoordResult.exhausted (searchedCount c) (failedCount c)

/-- Modelled from the spec: what the caller is shown.  There is no
crash alternative: every terminal state renders as a plain value. -/
inductive UserReport where
  | foundReport (r : Record)
  | notFoundReport (searched failures : Nat)
  deriving DecidableEq

/-- Exhausted and Aborted are both reported as a not found result with
diagnostic counts. -/
def report : CoordResult → UserReport
  | CoordResult.foundR r => UserReport.foundReport r
  | CoordResult.exhausted s f => UserReport.notFoundReport s f
  | CoordResult.aborted => UserReport.notFoundReport 0 0

theorem countP_set_add {α : Type} (p : α → Bool) (l : List α) (i : Nat) (a b : α)
    (h : l[i]? = some b) :
    (l.set i a).countP p + (if p b then 1 else 0) =
      l.countP p + (if p a then 1 else 0) := by
  induction l generalizing i with
  | nil => simp at h
  | cons x xs ih =>
    cases i with
    | zero =>
      obtain rfl : x = b := by simpa using h
      simp only [List.set, List.countP_cons]
      omega
    | succ n =>
      have hx := ih n (by simpa using h)
      simp only [List.set, List.countP_cons]
      omega

theorem holders_le_of_step (env : SearchEnv) (c c' : Config) (hstep : Step env c c')
    (hle : holders c ≤ env.gateCapacity) : holders c' ≤ env.gateCapacity := by
  cases hstep with
  | cancelSkip i hp hc =>
    have h := countP_set_add Phase.holdsGate c.phases i
      (Phase.done Outcome.notFound) Phase.pending hp
    simp [Phase.holdsGate] at h
    simp only [holders] at *
    omega
  | acquire i hp hg =>
    have h := countP_set_add Phase.holdsGate c.phases i Phase.holding Phase.pending hp
    simp [Phase.holdsGate] at h
    simp only [holders] at *
    omega
  | cancelRelease i hp hc =>
    have h := countP_set_add Phase.holdsGate c.phases i
      (Phase.done Outcome.notFound) Phase.holding hp
    simp [Phase.holdsGate] at h
    simp only [holders] at *
    omega
  | startFetch i hp hc =>
    have h := countP_set_add Phase.holdsGate c.phases i Phase.fetching Phase.holding hp
    simp [Phase.holdsGate] at h
    simp only [holders] at *
    omega
  | complete i hp =>
    have h := countP_set_add Phase.holdsGate c.phases i
      (Phase.done (taskOutcome env i)) Phase.fetching hp
    simp [Phase.holdsGate] at h
    simp only [holders] at *
    omega

theorem reachable_gate (env : SearchEnv) (c : Config) (h : Reachable env c) :
    holders c ≤ env.gateCapacity := by
  induction h with
  | refl =>
    simp [holders, initConfig, List.countP_replicate, Phase.holdsGate]
  | tail hs hstep ih => exact holders_le_of_step env _ _ hstep ih

theorem step_length (env : SearchEnv) (c c' : Config) (hstep : Step env c c') :
    c'.phases.length = c.phases.length := by
  cases hstep <;> simp

theorem reachable_length (env : SearchEnv) (c : Config) (h : Reachable env c) :
    c.phases.length = env.collections.length := by
  induction h with
  | refl => simp [initConfig]
  | tail hs hstep ih => rw [step_length env _ _ hstep]; exact ih

theorem cancelled_mono (env : SearchEnv) (c c' : Config) (hstep : Step env c c')
    (hc : c.cancelled = true) : c'.cancelled = true := by
  cases hstep <;> simp_all

theorem fetches_frozen_of_step (env : SearchEnv) (c c' : Config) (hstep : Step env c c')
    (hc : c.cancelled = true) : c'.fetches = c.fetches := by
  cases hstep <;> simp_all

theorem frozen_aux (env : SearchEnv) (c c' : Config)
    (hsteps : Relation.ReflTransGen (Step env) c c') (hc : c.cancelled = true) :
    c'.cancelled = true ∧ c'.fetches = c.fetches := by
  induction hsteps with
  | refl => exact ⟨hc, rfl⟩
  | tail hs hstep ih =>
    exact ⟨cancelled_mono env _ _ hstep ih.1,
      (fetches_frozen_of_step env _ _ hstep ih.1).trans ih.2⟩

theorem found_cancelled_step (env : SearchEnv) (c c' : Config) (hstep : Step env c c')
    (hinv : c.found.isSome = true → c.cancelled = true) :
    c'.found.isSome = true → c'.cancelled = true := by
  cases hstep with
  | cancelSkip i hp hc => intro _; exact hc
  | acquire i hp hg => exact hinv
  | cancelRelease i hp hc => intro _; exact hc
  | startFetch i hp hc => exact hinv
  | complete i hp =>
    intro hf
    cases hcf : c.found with
    | some r => simp [hinv (by simp [hcf])]
    | none =>
      cases ho : taskOutcome env i with
      | found r => simp [ho, Outcome.isFound]
      | notFound =>
        exfalso
        simp only [hcf, ho, updateFound] at hf
        simp at hf
      | failed e =>
        exfalso
        simp only [hcf, ho, updateFound] at hf
        simp at hf

theorem reachable_found_cancelled (env : SearchEnv) (c : Config)
    (h : Reachable env c) : c.found.isSome = true → c.cancelled = true := by
  induction h with
  | refl => intro hf; simp [initConfig] at hf
  | tail hs hstep ih => exact found_cancelled_step env _ _ hstep ih

/-- The global invariant driving the unique match argument: as long as
no Found outcome was observed, the cancellation signal is clear and
the uniquely matching task has not settled; afterwards the coordinator
permanently holds the record of that task and the signal is set. -/
def UniqueModes (j : Nat) (r : Record) (c : Config) : Prop :=
  (c.found = none ∧ c.cancelled = false ∧
    ∀ o : Outcome, c.phases[j]? ≠ some (Phase.done o))
  ∨ (c.found = some r ∧ c.cancelled = true)

theorem updateFound_not_found (f : Option Record) (o : Outcome)
    (ho : o.isFound = false) : updateFound f o = f := by
  cases o with
  | found q => simp [Outcome.isFound] at ho
  | notFound => cases f <;> rfl
  | failed e => cases f <;> rfl

theorem updateFound_some (r : Record) (o : Outcome) :
    updateFound (some r) o = some r := by
  cases o <;> rfl

theorem uniqueModes_step (env : SearchEnv) (j : Nat) (r : Record)
    (hj : taskOutcome env j = Outcome.found r)
    (huniq : ∀ i : Nat, i ≠ j → (taskOutcome env i).isFound = false)
    (c c' : Config) (hstep : Step env c c') (hinv : UniqueModes j r c) :
    UniqueModes j r c' := by
  cases hstep with
  | cancelSkip i hp hc =>
    rcases hinv with h | h
    · rw [h.2.1] at hc; exact absurd hc (by simp)
    · exact Or.inr h
  | acquire i hp hg =>
    rcases hinv with h | h
    · refine Or.inl ⟨h.1, h.2.1, fun o => ?_⟩
      by_cases hij : i = j
      · subst hij
        obtain ⟨hlt, -⟩ := List.getElem?_eq_some_iff.mp hp
        rw [List.getElem?_set_self hlt]
        simp
      · rw [List.getElem?_set_ne hij]
        exact h.2.2 o
    · exact Or.inr h
  | cancelRelease i hp hc =>
    rcases hinv with h | h
    · rw [h.2.1] at hc; exact absurd hc (by simp)
    · exact Or.inr h
  | startFetch i hp hc =>
    rcases hinv with h | h
    · refine Or.inl ⟨h.1, h.2.1, fun o => ?_⟩
      by_cases hij : i = j
      · subst hij
        obtain ⟨hlt, -⟩ := List.getElem?_eq_some_iff.mp hp
        rw [List.getElem?_set_self hlt]
        simp
      · rw [List.getElem?_set_ne hij]
        exact h.2.2 o
    · rw [h.2] at hc; exact absurd hc (by simp)
  | complete i hp =>
    rcases hinv with h | h
    · by_cases hij : i = j
      · subst hij
        refine Or.inr ⟨?_, ?_⟩
        · show updateFound c.found (taskOutcome env i) = some r
          rw [h.1, hj]
          rfl
        · show (c.cancelled || (taskOutcome env i).isFound) = true
          rw [h.2.1, hj]
          rfl
      · refine Or.inl ⟨?_, ?_, fun o => ?_⟩
        · show updateFound c.found (taskOutcome env i) = none
          rw [h.1, updateFound_not_found none _ (huniq i hij)]
        · show (c.cancelled || (taskOutcome env i).isFound) = false
          rw [h.2.1, huniq i hij]
          rfl
        · rw [List.getElem?_set_ne hij]
          exact h.2.2 o
    · refine Or.inr ⟨?_, ?_⟩
      · show updateFound c.found (taskOutcome env i) = some r
        rw [h.1, updateFound_some]
      · show (c.cancelled || (taskOutcome env i).isFound) = true
        rw [h.2]
        rfl

theorem reachable_uniqueModes (env : SearchEnv) (j : Nat) (r : Record)
    (hj : taskOutcome env j = Outcome.found r)
    (huniq : ∀ i : Nat, i ≠ j → (taskOutcome env i).isFound = false)
    (c : Config) (h : Reachable env c) : UniqueModes j r c := by
  induction h with
  | refl =>
    refine Or.inl ⟨rfl, rfl, fun o => ?_⟩
    simp only [initConfig, List.getElem?_replicate]
    split <;> simp
  | tail hs hstep ih => exact uniqueModes_step env j r hj huniq _ _ hstep ih

/-- A concrete record matching targetA case insensitively, for the
witness runs. -/
def recA : Record := { name := "CE_X", type := "API" }

def targetA : SearchTarget := { name := "ce_x", type := "api" }

/-- One collection holding the matching record, gate capacity one. -/
def env1 : SearchEnv :=
  { gateCapacity := 1, collections := [Except.ok [recA]], target := targetA }

/-- The matching collection followed by an empty one. -/
def env2 : SearchEnv :=
  { gateCapacity := 1, collections := [Except.ok [recA], Except.ok []],
    target := targetA }

def cfg1a : Config :=
  { phases := [Phase.holding], cancelled := false, found := none, fetches := 0 }

def cfg1b : Config :=
  { phases := [Phase.fetching], cancelled := false, found := none, fetches := 1 }

def cfg1c : Config :=
  { phases := [Phase.done (Outcome.found recA)], cancelled := true,
    found := some recA, fetches := 1 }

def cfg2a : Config :=
  { phases := [Phase.holding, Phase.pending], cancelled := false,
    found := none, fetches := 0 }

def cfg2b : Config :=
  { phases := [Phase.fetching, Phase.pending], cancelled := false,
    found := none, fetches := 1 }

def cfg2c : Config :=
  { phases := [Phase.done (Outcome.found recA), Phase.pending], cancelled := true,
    found := some recA, fetches := 1 }

def cfg2d : Config :=
  { phases := [Phase.done (Outcome.found recA), Phase.done Outcome.notFound],
    cancelled := true, found := some recA, fetches := 1 }

theorem reach_cfg1c : Reachable env1 cfg1c :=
  Relation.ReflTransGen.head (Step.acquire (initConfig 1) 0 rfl (by decide))
    (Relation.ReflTransGen.head (Step.startFetch cfg1a 0 rfl rfl)
      (Relation.ReflTransGen.single (Step.complete cfg1b 0 rfl)))

theorem reach_cfg2c : Reachable env2 cfg2c :=
  Relation.ReflTransGen.head (Step.acquire (initConfig 2) 0 rfl (by decide))
    (Relation.ReflTransGen.head (Step.startFetch cfg2a 0 rfl rfl)
      (Relation.ReflTransGen.single (Step.complete cfg2b 0 rfl)))

theorem env1_unique (i : Nat) (q : Record) (hi : i ≠ 0) :
    taskOutcome env1 i ≠ Outcome.found q := by
  cases i with
  | zero => exact absurd rfl hi
  | succ n =>
    intro h
    have hn : taskOutcome env1 (Nat.succ n) = Outcome.notFound := rfl
    rw [hn] at h
    exact Outcome.noConfusion h

/-- Claim C1: if exactly one collection among the N searched contains
a record matching the target (task j settles Found with record r and
no other task can settle Found), then every run of the search ends
with find_artifact returning Found carrying that record.  The theorem
quantifies over every reachable terminal configuration, hence over
every gate capacity K of at least one and every interleaving of task
steps; interleavings subsume every assignment of per task latencies,
and the agreement of all terminal configurations is the idempotence of
repeated runs. -/
theorem find_artifact_unique_found (env : SearchEnv) (j : Nat) (r : Record)
    (hK : 1 ≤ env.gateCapacity)
    (hj : taskOutcome env j = Outcome.found r)
    (huniq : ∀ (i : Nat) (q : Record), i ≠ j → taskOutcome env i ≠ Outcome.found q)
    (c : Config) (hreach : Reachable env c) (hterm : c.allDone = true) :
    find_artifact c = CoordResult.foundR r := by
  have huniq' : ∀ i : Nat, i ≠ j → (taskOutcome env i).isFound = false := by
    intro i hi
    cases ho : taskOutcome env i with
    | found q => exact absurd ho (huniq i q hi)
    | notFound => rfl
    | failed e => rfl
  rcases reachable_uniqueModes env j r hj huniq' c hreach with h | h
  · exfalso
    have hjlt : j < env.collections.length := by
      by_contra hge
      have hnone : env.collections[j]? = none :=
        List.getElem?_eq_none (Nat.le_of_not_lt hge)
      have hnf : taskOutcome env j = Outcome.notFound := by
        rw [taskOutcome, hnone]
      rw [hnf] at hj
      exact Outcome.noConfusion hj
    have hlen := reachable_length env c hreach
    have hjp : j < c.phases.length := by rw [hlen]; exact hjlt
    obtain ⟨p, hp⟩ : ∃ p, c.phases[j]? = some p := by
      cases hq : c.phases[j]? with
      | none => exact absurd (List.getElem?_eq_none_iff.mp hq) (by omega)
      | some p => exact ⟨p, rfl⟩
    have hpd : Phase.isDone p = true :=
      List.all_eq_true.mp hterm p (List.getElem?_mem hp)
    cases p with
    | done o => exact h.2.2 o hp
    | pending => simp [Phase.isDone] at hpd
    | holding => simp [Phase.isDone] at hpd
    | fetching => simp [Phase.isDone] at hpd
  · rw [find_artifact, h.1]

/-- Witness for C1: the one collection environment, run to its unique
terminal configuration. -/
theorem find_artifact_unique_found_witness :
    find_artifact cfg1c = CoordResult.foundR recA :=
  find_artifact_unique_found env1 0 recA (by decide) rfl env1_unique
    cfg1c reach_cfg1c rfl

/-- Claim C2: along every reachable configuration of a search with
gate capacity K of at least one, the number of tasks holding a slot of
the Concurrency Gate never exceeds K. -/
theorem gate_holders_le_capacity (env : SearchEnv) (c : Config)
    (hK : 1 ≤ env.gateCapacity) (h : Reachable env c) :
    holders c ≤ env.gateCapacity :=
  reachable_gate env c h

/-- Witness for C2 at a configuration with one held slot. -/
theorem gate_holders_le_capacity_witness : holders cfg1a ≤ env1.gateCapacity :=
  gate_holders_le_capacity env1 cfg1a (by decide)
    (Relation.ReflTransGen.single (Step.acquire (initConfig 1) 0 rfl (by decide)))

/-- Claim C4: from any reachable configuration in which a Found
outcome has been recorded (at which point the CancellationSignal is
set), the count of initiated remote fetches never increases along any
continuation of the run: no new fetch is initiated for any not yet
started task once the first Found is observed. -/
theorem no_new_fetch_after_found (env : SearchEnv) (c c' : Config)
    (hreach : Reachable env c) (hfound : c.found.isSome = true)
    (hsteps : Relation.ReflTransGen (Step env) c c') :
    c'.fetches = c.fetches :=
  (frozen_aux env c c' hsteps (reachable_found_cancelled env c hreach hfound)).2

/-- Witness for C4: after task one finds the record, draining the
pending task two does not initiate a fetch. -/
theorem no_new_fetch_after_found_witness : cfg2d.fetches = cfg2c.fetches :=
  no_new_fetch_after_found env2 cfg2c cfg2d reach_cfg2c rfl
    (Relation.ReflTransGen.single (Step.cancelSkip cfg2c 1 rfl rfl))

/-- Claim C3: the match predicate returns true exactly when the
name field of the record equals the target name case insensitively and the
type field of the record equals the target type case insensitively; both
comparisons are whole field equality up to case folding, so no partial
or fuzzy match can succeed. -/
theorem matchesTarget_iff (r : Record) (t : SearchTarget) :
    matchesTarget r t = true ↔
      (lowerData r.name = lowerData t.name ∧ lowerData r.type = lowerData t.type) := by
  simp [matchesTarget]

/-- Claim C5 counterexample: a transport failure and a non success
status failure hand the caller the very same value (None), so the two
failure kinds are not distinguishable in the result handed upward. -/
theorem failure_kinds_same_result :
    (make_sap_api_request Nat HttpAttempt.requestError ("u") none).result =
      (make_sap_api_request Nat (HttpAttempt.statusError 500) ("u") none).result ∧
    (make_sap_api_request Nat HttpAttempt.requestError ("u") none).result = none :=
  ⟨rfl, rfl⟩

/-- Claim C5 (amended): the fetch either returns the parsed body or
fails by handing back None; transport failures and non success status
failures both yield None and are distinguished only in the printed
diagnostic line, not in the returned value. -/
theorem make_sap_api_request_failure_modes (α : Type) (b : α) (url : String)
    (params : Option (List (String × String))) (code : Nat) :
    (make_sap_api_request α (HttpAttempt.success b) url params).result = some b ∧
    (make_sap_api_request α (HttpAttempt.statusError code) url params).result = none ∧
    (make_sap_api_request α HttpAttempt.requestError url params).result = none ∧
    (make_sap_api_request α HttpAttempt.otherError url params).result = none ∧
    (make_sap_api_request α (HttpAttempt.statusError code) url params).log ≠
      (make_sap_api_request α HttpAttempt.requestError url params).log := by
  refine ⟨rfl, rfl, rfl, rfl, ?_⟩
  intro h
  have h2 : (["Making request to", "HTTP error occurred"] : List String) =
      ["Making request to", "An error occurred while requesting"] := h
  exact absurd h2 (by decide)

/-- Witness for the amended C5 at concrete inputs. -/
theorem make_sap_api_request_failure_modes_witness :
    (make_sap_api_request Nat (HttpAttempt.success 7) ("u") none).result = some 7 ∧
    (make_sap_api_request Nat (HttpAttempt.statusError 500) ("u") none).result = none ∧
    (make_sap_api_request Nat HttpAttempt.requestError ("u") none).result = none ∧
    (make_sap_api_request Nat HttpAttempt.otherError ("u") none).result = none ∧
    (make_sap_api_request Nat (HttpAttempt.statusError 500) ("u") none).log ≠
      (make_sap_api_request Nat HttpAttempt.requestError ("u") none).log :=
  make_sap_api_request_failure_modes Nat 7 ("u") none 500

/-- Claim C6: every call to make_sap_api_request issues exactly one
outbound request, on every path; a failing attempt is reported upward
as is (None) with no retry, so the request count is one regardless of
the outcome. -/
theorem make_sap_api_request_one_call (α : Type) (remote : HttpAttempt α)
    (url : String) (params : Option (List (String × String))) :
    (make_sap_api_request α remote url params).requests.length = 1 ∧
    ((∀ b : α, remote ≠ HttpAttempt.success b) →
      (make_sap_api_request α remote url params).result = none) := by
  cases remote with
  | success b => exact ⟨rfl, fun h => absurd rfl (h b)⟩
  | statusError code => exact ⟨rfl, fun _ => rfl⟩
  | requestError => exact ⟨rfl, fun _ => rfl⟩
  | otherError => exact ⟨rfl, fun _ => rfl⟩

/-- Witness for C6 on a failing transport attempt. -/
theorem make_sap_api_request_one_call_witness :
    (make_sap_api_request Nat HttpAttempt.requestError ("u") none).requests.length = 1 ∧
    (make_sap_api_request Nat HttpAttempt.requestError ("u") none).result = none :=
  ⟨(make_sap_api_request_one_call Nat HttpAttempt.requestError ("u") none).1,
    (make_sap_api_request_one_call Nat HttpAttempt.requestError ("u") none).2
      (fun _ h => HttpAttempt.noConfusion h)⟩

/-- Claim C7: the operation never surfaces a crash.  A run that never
observed Found renders as Exhausted carrying its diagnostic counts;
Exhausted and Aborted both render as not found reports; the recorded
result can change only through a Found task outcome, so individual
task failures are absorbed into the failure tally and never escalate;
and at the request layer every failure kind hands back None rather
than raising. -/
theorem failures_absorbed_never_crash :
    (∀ (env : SearchEnv) (c : Config), Reachable env c → c.found = none →
      find_artifact c = CoordResult.exhausted (searchedCount c) (failedCount c)) ∧
    (∀ s f : Nat, report (CoordResult.exhausted s f) = UserReport.notFoundReport s f) ∧
    report CoordResult.aborted = UserReport.notFoundReport 0 0 ∧
    (∀ (env : SearchEnv) (c c' : Config), Step env c c' → c.found = none →
      c'.found ≠ none → ∃ (i : Nat) (r : Record),
        c.phases[i]? = some Phase.fetching ∧ taskOutcome env i = Outcome.found r) ∧
    (∀ (α : Type) (url : String) (params : Option (List (String × String)))
        (code : Nat),
      (make_sap_api_request α (HttpAttempt.statusError code) url params).result = none ∧
      (make_sap_api_request α HttpAttempt.requestError url params).result = none ∧
      (make_sap_api_request α HttpAttempt.otherError url params).result = none) := by
  refine ⟨?_, fun s f => rfl, rfl, ?_, fun α url params code => ⟨rfl, rfl, rfl⟩⟩
  · intro env c _ hnone
    rw [find_artifact, hnone]
  · intro env c c' hstep hnone hsome
    cases hstep with
    | cancelSkip i hp hc => exact absurd hnone hsome
    | acquire i hp hg => exact absurd hnone hsome
    | cancelRelease i hp hc => exact absurd hnone hsome
    | startFetch i hp hc => exact absurd hnone hsome
    | complete i hp =>
      refine ⟨i, ?_⟩
      cases ho : taskOutcome env i with
      | found r => exact ⟨r, hp, rfl⟩
      | notFound =>
        exfalso
        apply hsome
        show updateFound c.found (taskOutcome env i) = none
        rw [hnone, ho]
        rfl
      | failed e =>
        exfalso
        apply hsome
        show updateFound c.found (taskOutcome env i) = none
        rw [hnone, ho]
        rfl

/-- Witness for C7: the initial configuration of the one collection
search reports Exhausted with its counts. -/
theorem failures_absorbed_never_crash_witness :
    find_artifact (initConfig (env1.collections.length)) =
      CoordResult.exhausted (searchedCount (initConfig (env1.collections.length)))
        (failedCount (initConfig (env1.collections.length))) :=
  failures_absorbed_never_crash.1 env1 (initConfig (env1.collections.length))
    Relation.ReflTransGen.refl rfl

/-- Claim C8: escape_odata_string doubles every single quote and
leaves every other character unchanged and in order: it equals the
character wise flat map that sends the quote to two quotes and every
other character to itself; it is the identity on quote free strings;
and its length is the input length plus the number of quotes. -/
theorem escape_odata_string_spec (s : String) :
    escape_odata_string s =
      String.mk (s.data.flatMap
        (fun c => if c = quoteChar then [quoteChar, quoteChar] else [c])) ∧
    (escape_odata_string s).length = s.length + s.data.count quoteChar ∧
    (quoteChar ∉ s.data → escape_odata_string s = s) := by
  refine ⟨?_, escapeQuotes_length s.data, ?_⟩
  · rw [escape_odata_string, escapeQuotes_eq_flatMap]
  · intro h
    rw [escape_odata_string, escapeQuotes_id s.data h]

/-- Witness for C8: identity on a quote free string. -/
theorem escape_odata_string_spec_witness : escape_odata_string ("ab") = ("ab") :=
  (escape_odata_string_spec ("ab")).2.2 (by decide)

/-- Claim C9: make_sap_api_request stores $format=json into the
parameter dictionary before issuing the request.  With a caller
supplied dictionary, the dictionary the request carries is the
own updated one of the caller and is exactly what the caller observes after
the call; in it $format maps to json while every other key keeps its
previous binding.  With no dictionary, a fresh one is created and the
caller retains nothing. -/
theorem make_sap_api_request_params_effect (α : Type) (remote : HttpAttempt α)
    (url : String) (d : List (String × String)) :
    (make_sap_api_request α remote url (some d)).paramsAfter =
      some (dictSet d ("$format") ("json")) ∧
    (make_sap_api_request α remote url (some d)).requests =
      [{ url := url, query := dictSet d ("$format") ("json") }] ∧
    dictFind? (dictSet d ("$format") ("json")) ("$format") = some ("json") ∧
    (∀ k : String, k ≠ "$format" →
      dictFind? (dictSet d ("$format") ("json")) k = dictFind? d k) ∧
    (make_sap_api_request α remote url none).paramsAfter = none ∧
    (make_sap_api_request α remote url none).requests =
      [{ url := url, query := dictSet [] ("$format") ("json") }] := by
  refine ⟨?_, ?_, dictFind?_dictSet_self d ("$format") ("json"),
    fun k hk => dictFind?_dictSet_ne d ("$format") ("json") k hk, ?_, ?_⟩
  · cases remote <;> rfl
  · cases remote <;> rfl
  · cases remote <;> rfl
  · cases remote <;> rfl

/-- Witness for C9: the frame part at a concrete key. -/
theorem make_sap_api_request_params_effect_witness :
    dictFind? (dictSet [] ("$format") ("json")) ("q") = dictFind? [] ("q") :=
  (make_sap_api_request_params_effect Nat HttpAttempt.requestError ("u") []).2.2.2.1
    ("q") (by decide)

/-- Claim C10: on a record dictionary all of whose present values are
strings, both formatters return a string without raising; absent keys
render with the fixed defaults Unknown, N/A and No description (shown
here on the empty record); and the string valued precondition is what
protects the strip call on the Description value: a non string
Description makes the original raise, here none. -/
theorem format_artifact_total_defaults (entry : List (String × PyVal))
    (h : stringValued entry) :
    (format_artifact_entry entry).isSome = true ∧
    (format_artifact_detailed entry).isSome = true ∧
    format_artifact_entry [] =
      some ("Name: Unknown (Type: Unknown, SubType: N/A, Version: N/A, State: N/A)\nDisplay Name: Unknown\nDescription: No description") ∧
    format_artifact_detailed [] =
      some ("Name: Unknown\nDisplay Name: Unknown\nType: Unknown\nSubType: N/A\nVersion: N/A\nState: N/A\nRegistration ID: N/A\nCreated At: N/A\nModified At: N/A\nDescription: No description") ∧
    format_artifact_entry [("Description", PyVal.intVal 3)] = none := by
  obtain ⟨s, hs⟩ := dictGet_stringValued entry ("Description") ("No description") h
  refine ⟨?_, ?_, by decide, by decide, rfl⟩
  · simp [format_artifact_entry, hs, PyVal.strip?]
  · simp [format_artifact_detailed, hs, PyVal.strip?]

/-- Witness for C10 on a one key string valued record. -/
theorem format_artifact_total_defaults_witness :
    (format_artifact_entry [("Name", PyVal.str ("X"))]).isSome = true :=
  (format_artifact_total_defaults [("Name", PyVal.str ("X"))]
    (by
      intro p hp
      rw [List.mem_singleton] at hp
      subst hp
      exact ⟨("X"), rfl⟩)).1

end Accel
